import Mathlib

/-!
# Recurring date picker (src/App.js)

A shallow embedding of the `App` component of src/App.js: the state cells
declared with `useState`, the event handlers that update them, the assembly
of the options object handed to the recurrence engine, and the `useEffect`
that publishes the rule text and the first six occurrences.

The recurrence engine (`RRule`: building a rule, its text, its occurrences)
is an external library; it enters the development as a parameter
(`Engine`), every operation of which may throw.
-/

namespace DatePicker

/-! ## Values of the engine that the component stores -/

/-- Modelled from the spec: the engine's weekday objects, which are not under
src/. A weekday object carries the engine's weekday number (MO = 0 .. SU = 6)
and an optional ordinal `n` (absent on the seven constants, set by `nth`). -/
structure Weekday where
  weekday : Nat
  n : Option Int
  deriving DecidableEq, Repr

namespace RRule

/-- Modelled from the spec: the engine constant `RRule.MO`, weekday number 0. -/
def MO : Weekday := ⟨0, none⟩
/-- Modelled from the spec: the engine constant `RRule.TU`, weekday number 1. -/
def TU : Weekday := ⟨1, none⟩
/-- Modelled from the spec: the engine constant `RRule.WE`, weekday number 2. -/
def WE : Weekday := ⟨2, none⟩
/-- Modelled from the spec: the engine constant `RRule.TH`, weekday number 3. -/
def TH : Weekday := ⟨3, none⟩
/-- Modelled from the spec: the engine constant `RRule.FR`, weekday number 4. -/
def FR : Weekday := ⟨4, none⟩
/-- Modelled from the spec: the engine constant `RRule.SA`, weekday number 5. -/
def SA : Weekday := ⟨5, none⟩
/-- Modelled from the spec: the engine constant `RRule.SU`, weekday number 6. -/
def SU : Weekday := ⟨6, none⟩

end RRule

/-- Modelled from the spec: `weekday.nth(n)` of the engine, the constraint
"the n-th occurrence of this weekday" (n = -1 for the last one): the same
weekday number with ordinal `n`. The ordinal is never 0 here: it is the value of
an `ORDINALS` entry. -/
def Weekday.nth (w : Weekday) (n : Int) : Weekday :=
  if w.n = some n then w else ⟨w.weekday, some n⟩

/-- An entry of the `WEEKDAYS` table: `{ label, value }`. -/
structure WeekdayEntry where
  label : String
  value : Weekday
  deriving DecidableEq, Repr

/-- The `WEEKDAYS` table (App.js lines 9-17), Sunday first. -/
def WEEKDAYS : List WeekdayEntry :=
  [ ⟨"Sun", RRule.SU⟩,
    ⟨"Mon", RRule.MO⟩,
    ⟨"Tue", RRule.TU⟩,
    ⟨"Wed", RRule.WE⟩,
    ⟨"Thu", RRule.TH⟩,
    ⟨"Fri", RRule.FR⟩,
    ⟨"Sat", RRule.SA⟩ ]

/-- The entries of the `ORDINALS` table (App.js lines 19-25), which are the
options of the ordinal selector (lines 134-138) and so the only values the
`pos` field of `nthWeekday` takes. -/
inductive OrdinalOption where
  | First
  | Second
  | Third
  | Fourth
  | Last
  deriving DecidableEq, Repr

/-- The `label` of an `ORDINALS` entry. -/
def OrdinalOption.label : OrdinalOption → String
  | .First => "First"
  | .Second => "Second"
  | .Third => "Third"
  | .Fourth => "Fourth"
  | .Last => "Last"

/-- The `value` of an `ORDINALS` entry. -/
def OrdinalOption.value : OrdinalOption → Int
  | .First => 1
  | .Second => 2
  | .Third => 3
  | .Fourth => 4
  | .Last => -1

/-- The `ORDINALS` table (App.js lines 19-25). -/
def ORDINALS : List OrdinalOption :=
  [.First, .Second, .Third, .Fourth, .Last]

/-- The four values of the recurrence selector (App.js lines 81-84), the only
values `setFrequency` ever receives; `RRule[frequency]` is the engine constant
of the same name. -/
inductive Frequency where
  | DAILY
  | WEEKLY
  | MONTHLY
  | YEARLY
  deriving DecidableEq, Repr

/-- A date, as milliseconds since the epoch. -/
abbrev Date := Int

/-- The value thrown by a failing engine call. -/
abbrev Error := String

/-- The `nthWeekday` state cell: `{ pos, weekday }`. -/
structure NthWeekday where
  pos : OrdinalOption
  weekday : Weekday
  deriving DecidableEq, Repr

/-- The state cells of `App` (lines 27-34) together with the console, on which
the effect reports failures. `interval` is the result of `parseInt`, with
`none` for NaN. The weekday objects held in `selectedWeekdays` are always among
the seven constants of `WEEKDAYS`, which are pairwise different, so that
comparison of the objects (`includes`, `!==`) is comparison of their values. -/
structure State where
  frequency : Frequency
  interval : Option Int
  selectedWeekdays : List Weekday
  nthWeekday : NthWeekday
  startDate : Date
  endDate : Option Date
  previewDates : List Date
  rruleString : String
  console : List (String × Error)
  deriving DecidableEq, Repr

/-- The state at mount (lines 27-34); `now` is the value of `new Date()`. -/
def initialState (now : Date) : State :=
  { frequency := Frequency.WEEKLY
    interval := some 1
    selectedWeekdays := []
    nthWeekday := ⟨.First, RRule.MO⟩
    startDate := now
    endDate := none
    previewDates := []
    rruleString := ""
    console := [] }

/-! ## Event handlers -/

/-- The updater of `handleWeekdayChange` (lines 37-39):
`prev.includes(day) ? prev.filter((d) => d !== day) : [...prev, day]`. -/
def toggleWeekday (day : Weekday) (prev : List Weekday) : List Weekday :=
  if prev.contains day then prev.filter (fun d => d != day) else prev ++ [day]

/-- The handler `handleWeekdayChange(day)` (lines 36-40). -/
def handleWeekdayChange (day : Weekday) (st : State) : State :=
  { st with selectedWeekdays := toggleWeekday day st.selectedWeekdays }

/-- The `onChange` of the ordinal selector (lines 127-132):
`setNthWeekday((prev) => ({ ...prev, pos: parseInt(e.target.value, 10) }))`,
where the chosen option is an entry of `ORDINALS`. -/
def setNthPos (pos : OrdinalOption) (st : State) : State :=
  { st with nthWeekday := { st.nthWeekday with pos := pos } }

/-- The entry `WEEKDAYS[i]` for an option index `i` of the weekday selector
(the options carry the indices 0..6, lines 153-157). -/
def weekdayEntry (i : Fin 7) : WeekdayEntry :=
  WEEKDAYS.get ⟨i.val, by simp [WEEKDAYS]⟩

/-- The `onChange` of the monthly weekday selector (lines 146-151):
`setNthWeekday((prev) => ({ ...prev, weekday: WEEKDAYS[i].value }))`, where
`i` is the parsed value of the chosen option. -/
def setNthWeekdayDay (i : Fin 7) (st : State) : State :=
  { st with nthWeekday := { st.nthWeekday with weekday := (weekdayEntry i).value } }

/-- The controlled value of the monthly weekday selector (line 145):
`value={nthWeekday.weekday.weekday}`. -/
def weekdaySelectValue (st : State) : Nat :=
  st.nthWeekday.weekday.weekday

/-- The label of the option the monthly weekday selector shows as selected:
the option whose value (its index in `WEEKDAYS`, line 154) is the controlled
value. -/
def weekdaySelectShownLabel (st : State) : Option String :=
  (WEEKDAYS.get? (weekdaySelectValue st)).map WeekdayEntry.label

/-- The label under which `WEEKDAYS` lists a weekday object. -/
def weekdayLabel (w : Weekday) : Option String :=
  (WEEKDAYS.find? (fun e => e.value == w)).map WeekdayEntry.label

/-! ## Derivation -/

/-- The options object handed to `new RRule` (lines 44-57), with `until_` for its field
`until`; `until_` and `byweekday` are absent (`undefined`) when `none`. -/
structure Options where
  freq : Frequency
  interval : Option Int
  dtstart : Date
  until_ : Option Date
  byweekday : Option (List Weekday)
  deriving DecidableEq, Repr

/-- The assembly of the options object (lines 44-57). The state cell
`nthWeekday` always holds an object, so the test `frequency === "MONTHLY" &&
nthWeekday` is the test on the frequency. -/
def buildOptions (st : State) : Options :=
  let options : Options :=
    { freq := st.frequency
      interval := st.interval
      dtstart := st.startDate
      until_ := st.endDate
      byweekday := none }
  let options :=
    if st.frequency = Frequency.WEEKLY then
      { options with byweekday := some st.selectedWeekdays }
    else options
  let options :=
    if st.frequency = Frequency.MONTHLY then
      { options with byweekday := some [st.nthWeekday.weekday.nth st.nthWeekday.pos.value] }
    else options
  options

/-- The recurrence engine, an external library: `new RRule(options)`,
`rule.toString()` and `rule.all()`, each of which may throw. -/
structure Engine (Rule : Type) where
  mkRule : Options → Except Error Rule
  toString : Rule → Except Error String
  all : Rule → Except Error (List Date)

/-- The body of the `try` block (lines 44-62), run on the state `st`: the state
after the last statement that completed, and the exception thrown, if any.
The setters called before a throw have taken effect. -/
def tryBlock {Rule : Type} (E : Engine Rule) (st : State) : State × Option Error :=
  let options := buildOptions st
  match E.mkRule options with
  | .error e => (st, some e)
  | .ok rule =>
    match E.toString rule with
    | .error e => (st, some e)
    | .ok text =>
      let st1 := { st with rruleString := text }
      match E.all rule with
      | .error e => (st1, some e)
      | .ok dates =>
        let nextDates := dates.take 6
        ({ st1 with previewDates := nextDates }, none)

/-- The effect (lines 42-66): the `try` block, and in the `catch` clause
`console.error("RRULE error", e)`. -/
def derivation {Rule : Type} (E : Engine Rule) (st : State) : State :=
  match tryBlock E st with
  | (st1, none) => st1
  | (st1, some e) => { st1 with console := st1.console ++ [("RRULE error", e)] }

/-- The derivation fails: a statement of the `try` block throws. -/
def derivationFails {Rule : Type} (E : Engine Rule) (st : State) : Prop :=
  (tryBlock E st).2.isSome = true

instance {Rule : Type} (E : Engine Rule) (st : State) : Decidable (derivationFails E st) := by
  unfold derivationFails; infer_instance

/-! ## A small engine, for evaluation

An engine with the interface of section 6 of the specification: building a
rule throws on an inconsistent configuration, here an interval below 1 or NaN;
the rule text and the occurrence list do not throw. Daily occurrences only. -/

/-- Occurrences `start, start + step, ...`, up to `stop` when there is one, at
most `fuel` of them. -/
def sampleOccurrences (start : Int) (stop : Option Int) (step : Int) : Nat → List Date
  | 0 => []
  | fuel + 1 =>
    if (match stop with
        | none => true
        | some last => decide (start ≤ last)) then
      start :: sampleOccurrences (start + step) stop step fuel
    else []

/-- The small engine; of a rule without end date it lists the first 20
occurrences, of which the preview reads six. -/
def sampleEngine : Engine Options where
  mkRule := fun o =>
    match o.interval with
    | none => .error "Invalid interval"
    | some k => if k < 1 then .error "Invalid interval" else .ok o
  toString := fun o =>
    .ok (match o.freq with
      | .DAILY => "FREQ=DAILY"
      | .WEEKLY => "FREQ=WEEKLY"
      | .MONTHLY => "FREQ=MONTHLY"
      | .YEARLY => "FREQ=YEARLY")
  all := fun o =>
    .ok (sampleOccurrences o.dtstart o.until_ ((o.interval.getD 1) * 86400000) 20)

/-- A state with an end date ten days after the start. -/
def sampleState : State :=
  { initialState 0 with
    frequency := Frequency.DAILY
    endDate := some 864000000
    selectedWeekdays := [RRule.MO, RRule.WE]
    rruleString := "old text"
    previewDates := [1, 2, 3] }

/-- The fields of the state that the derivation publishes: the rule text and
the occurrence list on display. -/
def preview (st : State) : String × List Date :=
  (st.rruleString, st.previewDates)

/-- The selection after the toggles `ws`, in this order, from the state at mount. -/
def selectionAfter (now : Date) (ws : List Weekday) : List Weekday :=
  (ws.foldl (fun st w => handleWeekdayChange w st) (initialState now)).selectedWeekdays

/-- A weekly state whose selection is Monday, Wednesday. -/
def weeklyState : State :=
  { sampleState with frequency := Frequency.WEEKLY }

/-- A state without end date. -/
def unboundedState : State :=
  { sampleState with endDate := none }

/-- A state with interval 0, which the small engine rejects when the rule is
built. -/
def zeroIntervalState : State :=
  { sampleState with interval := some 0 }

/-- The fields of the state that the derivation reads (its dependency list,
line 66). -/
def inputs (st : State) :
    Frequency × Option Int × List Weekday × NthWeekday × Date × Option Date :=
  (st.frequency, st.interval, st.selectedWeekdays, st.nthWeekday, st.startDate, st.endDate)

/-! ## Lemmas on the weekday toggle -/

theorem mem_toggleWeekday (w v : Weekday) (s : List Weekday) :
    v ∈ toggleWeekday w s ↔ (if w ∈ s then v ∈ s ∧ v ≠ w else v ∈ s ∨ v = w) := by
  unfold toggleWeekday
  by_cases h : w ∈ s <;> simp [h]

theorem toggleWeekday_of_mem {w : Weekday} {s : List Weekday} (h : w ∈ s) :
    toggleWeekday w s = s.filter (fun d => d != w) := by
  simp [toggleWeekday, h]

theorem toggleWeekday_of_not_mem {w : Weekday} {s : List Weekday} (h : w ∉ s) :
    toggleWeekday w s = s ++ [w] := by
  simp [toggleWeekday, h]

theorem toggleWeekday_twice_of_not_mem {w : Weekday} {s : List Weekday} (h : w ∉ s) :
    toggleWeekday w (toggleWeekday w s) = s := by
  rw [toggleWeekday_of_not_mem h, toggleWeekday_of_mem (by simp)]
  rw [List.filter_append]
  have : s.filter (fun d => d != w) = s := by
    rw [List.filter_eq_self]
    intro a ha
    have : a ≠ w := fun hEq => h (hEq ▸ ha)
    simpa using this
  simp [this]

theorem toggleWeekday_twice_of_mem {w : Weekday} {s : List Weekday} (h : w ∈ s) :
    toggleWeekday w (toggleWeekday w s) = s.filter (fun d => d != w) ++ [w] := by
  rw [toggleWeekday_of_mem h, toggleWeekday_of_not_mem (by simp)]

theorem toggleWeekday_nodup {w : Weekday} {s : List Weekday} (h : s.Nodup) :
    (toggleWeekday w s).Nodup := by
  by_cases hw : w ∈ s
  · rw [toggleWeekday_of_mem hw]
    exact h.filter _
  · rw [toggleWeekday_of_not_mem hw]
    rw [List.nodup_append]
    refine ⟨h, List.nodup_singleton w, ?_⟩
    intro a ha hb
    simp at hb
    exact hw (hb ▸ ha)

/-! ## Lemmas on the derivation -/

theorem buildOptions_eq_of_inputs {a b : State} (h : inputs a = inputs b) :
    buildOptions a = buildOptions b := by
  simp only [inputs, Prod.mk.injEq] at h
  obtain ⟨h1, h2, h3, h4, h5, h6⟩ := h
  simp [buildOptions, h1, h2, h3, h4, h5, h6]

theorem derivation_of_ok {Rule : Type} (E : Engine Rule) (st : State) {rule : Rule}
    {text : String} {dates : List Date} (h1 : E.mkRule (buildOptions st) = .ok rule)
    (h2 : E.toString rule = .ok text) (h3 : E.all rule = .ok dates) :
    derivation E st = { st with rruleString := text, previewDates := dates.take 6 } := by
  simp [derivation, tryBlock, h1, h2, h3]

theorem derivation_of_listing_error {Rule : Type} (E : Engine Rule) (st : State)
    {rule : Rule} {text : String} {e : Error} (h1 : E.mkRule (buildOptions st) = .ok rule)
    (h2 : E.toString rule = .ok text) (h3 : E.all rule = .error e) :
    derivation E st
      = { st with rruleString := text, console := st.console ++ [("RRULE error", e)] } := by
  simp [derivation, tryBlock, h1, h2, h3]

theorem ok_of_not_derivationFails {Rule : Type} (E : Engine Rule) (st : State)
    (h : ¬ derivationFails E st) :
    ∃ rule text dates, E.mkRule (buildOptions st) = .ok rule ∧ E.toString rule = .ok text ∧
      E.all rule = .ok dates := by
  unfold derivationFails tryBlock at h
  cases h1 : E.mkRule (buildOptions st) with
  | error e => simp [h1] at h
  | ok rule =>
    cases h2 : E.toString rule with
    | error e => simp [h1, h2] at h
    | ok text =>
      cases h3 : E.all rule with
      | error e => simp [h1, h2, h3] at h
      | ok dates => exact ⟨rule, text, dates, rfl, h2, h3⟩

theorem inputs_derivation {Rule : Type} (E : Engine Rule) (st : State) :
    inputs (derivation E st) = inputs st := by
    cases h1 : E.mkRule (buildOptions st) with
  | error e => simp [derivation, tryBlock, inputs, *]
  | ok rule =>
    cases h2 : E.toString rule with
    | error e => simp [derivation, tryBlock, inputs, *]
    | ok text =>
      cases h3 : E.all rule with
      | error e => simp [derivation, tryBlock, inputs, *]
      | ok dates => simp [derivation, tryBlock, inputs, *]

/-! ## The weekday selection -/

/-- C3: `handleWeekdayChange(w)` is a symmetric-difference update of the
selection: afterwards `w` is a member if and only if it was not one before, and
every other weekday `v` is a member if and only if it was one before. -/
theorem handleWeekdayChange_symmDiff (st : State) (w v : Weekday) :
    (w ∈ (handleWeekdayChange w st).selectedWeekdays ↔ w ∉ st.selectedWeekdays) ∧
    (v ≠ w →
      (v ∈ (handleWeekdayChange w st).selectedWeekdays ↔ v ∈ st.selectedWeekdays)) := by
  simp only [handleWeekdayChange, mem_toggleWeekday]
  by_cases h : w ∈ st.selectedWeekdays
  · simp only [if_pos h]
    exact ⟨by simp [h], fun hv => by simp [hv]⟩
  · simp only [if_neg h]
    exact ⟨by simp [h], fun hv => by simp [hv]⟩

/-- Witness of C3: toggling Monday in the selection Monday, Wednesday removes
Monday and keeps Wednesday. -/
theorem handleWeekdayChange_symmDiff_witness :
    RRule.WE ≠ RRule.MO ∧
    (RRule.MO ∈ (handleWeekdayChange RRule.MO weeklyState).selectedWeekdays ↔
      RRule.MO ∉ weeklyState.selectedWeekdays) ∧
    (RRule.WE ∈ (handleWeekdayChange RRule.MO weeklyState).selectedWeekdays ↔
      RRule.WE ∈ weeklyState.selectedWeekdays) :=
  ⟨by decide, (handleWeekdayChange_symmDiff weeklyState RRule.MO RRule.WE).1,
    (handleWeekdayChange_symmDiff weeklyState RRule.MO RRule.WE).2 (by decide)⟩

/-- Counterexample to C2: with Monday, Wednesday selected, toggling Monday twice
leaves Wednesday, Monday: the held list is not the prior one, and the weekday
constraint of the weekly configuration differs from the one before. -/
theorem toggle_twice_counterexample :
    weeklyState.frequency = Frequency.WEEKLY ∧
    weeklyState.selectedWeekdays = [RRule.MO, RRule.WE] ∧
    (handleWeekdayChange RRule.MO (handleWeekdayChange RRule.MO weeklyState)).selectedWeekdays
      = [RRule.WE, RRule.MO] ∧
    (handleWeekdayChange RRule.MO (handleWeekdayChange RRule.MO weeklyState)).selectedWeekdays
      ≠ weeklyState.selectedWeekdays ∧
    (buildOptions (handleWeekdayChange RRule.MO (handleWeekdayChange RRule.MO weeklyState))).byweekday
      ≠ (buildOptions weeklyState).byweekday := by
  decide

/-- C2, amended: toggling `w` twice yields a selection with the same members as
before. When `w` was not selected, the state is the prior one, so the
configuration is the same and, the two toggles each followed by the derivation,
a derivation that succeeds publishes the preview it publishes for the prior
state. When `w` was selected, the selection is the prior one with `w` removed
and put at the end, and under the frequency WEEKLY the weekday constraint of
the configuration is that reordered list. -/
theorem toggle_twice_amended (st : State) (w : Weekday) :
    (∀ v, v ∈ (handleWeekdayChange w (handleWeekdayChange w st)).selectedWeekdays ↔
      v ∈ st.selectedWeekdays) ∧
    (w ∉ st.selectedWeekdays →
      handleWeekdayChange w (handleWeekdayChange w st) = st ∧
      buildOptions (handleWeekdayChange w (handleWeekdayChange w st)) = buildOptions st ∧
      ∀ (Rule : Type) (E : Engine Rule), ¬ derivationFails E st →
        preview (derivation E (handleWeekdayChange w (derivation E (handleWeekdayChange w st))))
          = preview (derivation E st)) ∧
    (w ∈ st.selectedWeekdays →
      (handleWeekdayChange w (handleWeekdayChange w st)).selectedWeekdays
        = st.selectedWeekdays.filter (fun d => d != w) ++ [w] ∧
      (st.frequency = Frequency.WEEKLY →
        (buildOptions (handleWeekdayChange w (handleWeekdayChange w st))).byweekday
          = some (st.selectedWeekdays.filter (fun d => d != w) ++ [w]))) := by
  refine ⟨fun v => ?_, fun h => ?_, fun h => ?_⟩
  · simp only [handleWeekdayChange, mem_toggleWeekday]
    by_cases h : w ∈ st.selectedWeekdays
    · by_cases hv : v = w
      · subst hv; simp [h]
      · simp [h, hv]
    · by_cases hv : v = w
      · subst hv; simp [h]
      · simp [h, hv]
  · have hst : handleWeekdayChange w (handleWeekdayChange w st) = st := by
      simp [handleWeekdayChange, toggleWeekday_twice_of_not_mem h]
    refine ⟨hst, by rw [hst], fun Rule E hok => ?_⟩
    have hin : inputs (handleWeekdayChange w (derivation E (handleWeekdayChange w st)))
        = inputs st := by
      have h1 := inputs_derivation E (handleWeekdayChange w st)
      simp only [inputs, Prod.mk.injEq, handleWeekdayChange] at h1 ⊢
      obtain ⟨h1, h2, h3, h4, h5, h6⟩ := h1
      refine ⟨h1, h2, ?_, h4, h5, h6⟩
      rw [h3, toggleWeekday_twice_of_not_mem h]
    have hopt := buildOptions_eq_of_inputs hin
    obtain ⟨rule, text, dates, h1, h2, h3⟩ := ok_of_not_derivationFails E st hok
    rw [derivation_of_ok E st h1 h2 h3, derivation_of_ok E _ (hopt ▸ h1) h2 h3]
    rfl
  · refine ⟨by simp [handleWeekdayChange, toggleWeekday_twice_of_mem h], fun hf => ?_⟩
    have hf2 : (handleWeekdayChange w (handleWeekdayChange w st)).frequency
        = Frequency.WEEKLY := hf
    simp [buildOptions, hf2]
    simp [handleWeekdayChange, toggleWeekday_twice_of_mem h]

/-- Witness of C2, amended: in the weekly state with Monday, Wednesday selected,
toggling Friday twice restores the state and the preview the small engine
gives, and toggling Monday twice moves Monday to the end, in the selection and
in the weekday constraint of the configuration. -/
theorem toggle_twice_amended_witness :
    RRule.FR ∉ weeklyState.selectedWeekdays ∧
    handleWeekdayChange RRule.FR (handleWeekdayChange RRule.FR weeklyState) = weeklyState ∧
    ¬ derivationFails sampleEngine weeklyState ∧
    preview (derivation sampleEngine (handleWeekdayChange RRule.FR
        (derivation sampleEngine (handleWeekdayChange RRule.FR weeklyState))))
      = preview (derivation sampleEngine weeklyState) ∧
    RRule.MO ∈ weeklyState.selectedWeekdays ∧
    (handleWeekdayChange RRule.MO (handleWeekdayChange RRule.MO weeklyState)).selectedWeekdays
      = weeklyState.selectedWeekdays.filter (fun d => d != RRule.MO) ++ [RRule.MO] ∧
    weeklyState.frequency = Frequency.WEEKLY ∧
    (buildOptions (handleWeekdayChange RRule.MO
        (handleWeekdayChange RRule.MO weeklyState))).byweekday
      = some (weeklyState.selectedWeekdays.filter (fun d => d != RRule.MO) ++ [RRule.MO]) :=
  ⟨by decide,
    ((toggle_twice_amended weeklyState RRule.FR).2.1 (by decide)).1,
    by decide,
    ((toggle_twice_amended weeklyState RRule.FR).2.1 (by decide)).2.2 _ sampleEngine (by decide),
    by decide,
    ((toggle_twice_amended weeklyState RRule.MO).2.2 (by decide)).1,
    rfl,
    ((toggle_twice_amended weeklyState RRule.MO).2.2 (by decide)).2 rfl⟩

/-- C9: the selection never holds a weekday twice: it is empty at mount,
`handleWeekdayChange` keeps a duplicate-free selection duplicate-free, and so
the selection after any sequence of toggles from the state at mount is
duplicate-free. -/
theorem selectedWeekdays_nodup (now : Date) :
    (initialState now).selectedWeekdays = [] ∧
    (∀ (st : State) (w : Weekday), st.selectedWeekdays.Nodup →
      (handleWeekdayChange w st).selectedWeekdays.Nodup) ∧
    (∀ ws : List Weekday, (selectionAfter now ws).Nodup) := by
  refine ⟨rfl, fun st w h => toggleWeekday_nodup h, fun ws => ?_⟩
  unfold selectionAfter
  have key : ∀ (l : List Weekday) (st : State), st.selectedWeekdays.Nodup →
      (l.foldl (fun st w => handleWeekdayChange w st) st).selectedWeekdays.Nodup := by
    intro l
    induction l with
    | nil => intro st h; exact h
    | cons w l ih =>
      intro st h
      exact ih (handleWeekdayChange w st) (toggleWeekday_nodup h)
  exact key ws (initialState now) List.nodup_nil

/-- Witness of C9: toggling Monday in the duplicate-free selection Monday,
Wednesday gives a duplicate-free selection, and so does the sequence of toggles
Monday, Wednesday, Monday, Friday from the state at mount. -/
theorem selectedWeekdays_nodup_witness :
    weeklyState.selectedWeekdays.Nodup ∧
    (handleWeekdayChange RRule.MO weeklyState).selectedWeekdays.Nodup ∧
    (selectionAfter 0 [RRule.MO, RRule.WE, RRule.MO, RRule.FR]).Nodup :=
  ⟨by decide, (selectedWeekdays_nodup 0).2.1 weeklyState RRule.MO (by decide),
    (selectedWeekdays_nodup 0).2.2 _⟩

/-! ## The options object -/

/-- C5: when the frequency is WEEKLY, the weekday constraint of the options is
the current selection (the empty list when nothing is selected), and the
options are the same whatever the `nthWeekday` cell holds. -/
theorem buildOptions_weekly (st : State) (h : st.frequency = Frequency.WEEKLY) :
    (buildOptions st).byweekday = some st.selectedWeekdays ∧
    (st.selectedWeekdays = [] → (buildOptions st).byweekday = some []) ∧
    (∀ nw : NthWeekday,
      (buildOptions { st with nthWeekday := nw }).byweekday = some st.selectedWeekdays ∧
      buildOptions { st with nthWeekday := nw } = buildOptions st) := by
  refine ⟨by simp [buildOptions, h], fun he => by simp [buildOptions, h, he], fun nw => ?_⟩
  constructor <;> simp [buildOptions, h]

/-- Witness of C5: the weekly state with Monday, Wednesday selected, and the
state at mount, whose selection is empty. -/
theorem buildOptions_weekly_witness :
    weeklyState.frequency = Frequency.WEEKLY ∧
    (buildOptions weeklyState).byweekday = some [RRule.MO, RRule.WE] ∧
    (initialState 0).selectedWeekdays = [] ∧
    (buildOptions (initialState 0)).byweekday = some [] :=
  ⟨rfl, (buildOptions_weekly weeklyState rfl).1, rfl,
    (buildOptions_weekly (initialState 0) rfl).2.1 rfl⟩

/-- C6: when the frequency is MONTHLY, the options carry exactly one weekday
constraint, the weekday of the `nthWeekday` cell with the value of its ordinal
(-1 for Last), and the options are the same whatever the selection is. -/
theorem buildOptions_monthly (st : State) (h : st.frequency = Frequency.MONTHLY) :
    (buildOptions st).byweekday
      = some [⟨st.nthWeekday.weekday.weekday, some st.nthWeekday.pos.value⟩] ∧
    (∃ c, (buildOptions st).byweekday = some [c] ∧
      c = st.nthWeekday.weekday.nth st.nthWeekday.pos.value) ∧
    (st.nthWeekday.pos = OrdinalOption.Last →
      (buildOptions st).byweekday = some [⟨st.nthWeekday.weekday.weekday, some (-1)⟩]) ∧
    (∀ sel : List Weekday,
      buildOptions { st with selectedWeekdays := sel } = buildOptions st) := by
  have hnth : st.nthWeekday.weekday.nth st.nthWeekday.pos.value
      = ⟨st.nthWeekday.weekday.weekday, some st.nthWeekday.pos.value⟩ := by
    unfold Weekday.nth
    split
    · next hn =>
      cases hw : st.nthWeekday.weekday with
      | mk wd n => rw [hw] at hn; simp at hn; simp [hn]
    · rfl
  have hby : (buildOptions st).byweekday
      = some [st.nthWeekday.weekday.nth st.nthWeekday.pos.value] := by
    simp [buildOptions, h]
  refine ⟨by rw [hby, hnth], ⟨_, hby, rfl⟩, fun hl => ?_, fun sel => ?_⟩
  · rw [hby, hnth, hl]; rfl
  · simp [buildOptions, h]

/-- Witness of C6: the monthly state with the rule (Last, Friday). -/
theorem buildOptions_monthly_witness :
    (buildOptions { sampleState with
        frequency := Frequency.MONTHLY
        nthWeekday := ⟨OrdinalOption.Last, RRule.FR⟩ }).byweekday
      = some [⟨4, some (-1)⟩] :=
  (buildOptions_monthly { sampleState with
        frequency := Frequency.MONTHLY
        nthWeekday := ⟨OrdinalOption.Last, RRule.FR⟩ } rfl).1

/-- C7: when the frequency is DAILY or YEARLY, the options are the base fields
alone (frequency, interval, start date, the end date when there is one), without
a weekday constraint, whatever the selection and the `nthWeekday` cell hold. -/
theorem buildOptions_daily_yearly (st : State)
    (h : st.frequency = Frequency.DAILY ∨ st.frequency = Frequency.YEARLY) :
    buildOptions st =
      { freq := st.frequency
        interval := st.interval
        dtstart := st.startDate
        until_ := st.endDate
        byweekday := none } ∧
    (st.endDate = none → (buildOptions st).until_ = none) ∧
    (∀ (sel : List Weekday) (nw : NthWeekday),
      buildOptions { st with selectedWeekdays := sel, nthWeekday := nw } = buildOptions st) := by
  rcases h with h | h <;>
    exact ⟨by simp [buildOptions, h], fun he => by simp [buildOptions, h, he],
      fun sel nw => by simp [buildOptions, h]⟩

/-- Witness of C7: the daily sample state, with an end date, and the yearly
state without one. -/
theorem buildOptions_daily_yearly_witness :
    buildOptions sampleState =
      { freq := Frequency.DAILY
        interval := some 1
        dtstart := 0
        until_ := some 864000000
        byweekday := none } ∧
    (buildOptions { unboundedState with frequency := Frequency.YEARLY }).until_ = none :=
  ⟨(buildOptions_daily_yearly sampleState (Or.inl rfl)).1,
    (buildOptions_daily_yearly { unboundedState with frequency := Frequency.YEARLY }
      (Or.inr rfl)).2.1 rfl⟩

/-! ## The monthly selectors -/

/-- C8: choosing an ordinal replaces the ordinal of the `nthWeekday` cell and
keeps its weekday, choosing a weekday replaces the weekday and keeps the
ordinal, and neither changes the frequency, the interval, the selection, the
start date or the end date, also once the derivation has run. -/
theorem setNthWeekday_frame {Rule : Type} (E : Engine Rule) (st : State)
    (o : OrdinalOption) (i : Fin 7) :
    ((setNthPos o st).nthWeekday.pos = o ∧
      (setNthPos o st).nthWeekday.weekday = st.nthWeekday.weekday ∧
      (setNthPos o st).frequency = st.frequency ∧
      (setNthPos o st).interval = st.interval ∧
      (setNthPos o st).selectedWeekdays = st.selectedWeekdays ∧
      (setNthPos o st).startDate = st.startDate ∧
      (setNthPos o st).endDate = st.endDate) ∧
    ((setNthWeekdayDay i st).nthWeekday.weekday = (weekdayEntry i).value ∧
      (setNthWeekdayDay i st).nthWeekday.pos = st.nthWeekday.pos ∧
      (setNthWeekdayDay i st).frequency = st.frequency ∧
      (setNthWeekdayDay i st).interval = st.interval ∧
      (setNthWeekdayDay i st).selectedWeekdays = st.selectedWeekdays ∧
      (setNthWeekdayDay i st).startDate = st.startDate ∧
      (setNthWeekdayDay i st).endDate = st.endDate) ∧
    inputs (derivation E (setNthPos o st))
      = (st.frequency, st.interval, st.selectedWeekdays,
          ⟨o, st.nthWeekday.weekday⟩, st.startDate, st.endDate) ∧
    inputs (derivation E (setNthWeekdayDay i st))
      = (st.frequency, st.interval, st.selectedWeekdays,
          ⟨st.nthWeekday.pos, (weekdayEntry i).value⟩, st.startDate, st.endDate) := by
  refine ⟨⟨rfl, rfl, rfl, rfl, rfl, rfl, rfl⟩, ⟨rfl, rfl, rfl, rfl, rfl, rfl, rfl⟩, ?_, ?_⟩
  · rw [inputs_derivation]; rfl
  · rw [inputs_derivation]; rfl

/-- C10 fails on the code: after the user picks the option of index `i` of the
monthly weekday selector, the controlled value of the selector is the engine's
weekday number of `WEEKDAYS[i].value`, which is `(i + 6) % 7` and never `i`, so
the option shown as selected carries another label than the stored weekday; at
mount the rule (First, Mon) is shown as Sun. -/
theorem weekdaySelect_shows_other_day (now : Date) (st : State) (i : Fin 7) :
    weekdaySelectValue (setNthWeekdayDay i st) = (i.val + 6) % 7 ∧
    weekdaySelectValue (setNthWeekdayDay i st) ≠ i.val ∧
    weekdaySelectShownLabel (setNthWeekdayDay i st)
      ≠ weekdayLabel (setNthWeekdayDay i st).nthWeekday.weekday ∧
    weekdaySelectShownLabel (setNthWeekdayDay 0 st) = some "Sat" ∧
    weekdayLabel (setNthWeekdayDay 0 st).nthWeekday.weekday = some "Sun" ∧
    weekdaySelectValue (initialState now) = 0 ∧
    weekdaySelectShownLabel (initialState now) = some "Sun" ∧
    weekdayLabel (initialState now).nthWeekday.weekday = some "Mon" := by
  have key : ∀ j : Fin 7,
      (weekdayEntry j).value.weekday = (j.val + 6) % 7 ∧
      (weekdayEntry j).value.weekday ≠ j.val ∧
      (WEEKDAYS.get? (weekdayEntry j).value.weekday).map WeekdayEntry.label
        ≠ weekdayLabel (weekdayEntry j).value := by
    decide
  exact ⟨(key i).1, (key i).2.1, (key i).2.2, rfl, rfl, rfl, rfl, rfl⟩

/-! ## The effect -/

/-- C4: when the derivation succeeds, the preview published is the engine's
text of the rule built from the current options together with the first six
dates of the engine's occurrence list: the published list starts the engine's
list, in the same order, its length is the minimum of 6 and the number of
occurrences, and it is shorter than 6 exactly when the engine lists fewer
than 6. -/
theorem derivation_publishes {Rule : Type} (E : Engine Rule) (st : State)
    (h : ¬ derivationFails E st) :
    ∃ rule text dates,
      E.mkRule (buildOptions st) = .ok rule ∧ E.toString rule = .ok text ∧
      E.all rule = .ok dates ∧
      preview (derivation E st) = (text, dates.take 6) ∧
      (derivation E st).previewDates <+: dates ∧
      (derivation E st).previewDates.length = min 6 dates.length ∧
      ((derivation E st).previewDates.length < 6 ↔ dates.length < 6) := by
  obtain ⟨rule, text, dates, h1, h2, h3⟩ := ok_of_not_derivationFails E st h
  refine ⟨rule, text, dates, h1, h2, h3, ?_⟩
  rw [derivation_of_ok E st h1 h2 h3]
  refine ⟨rfl, List.take_prefix 6 dates, by simp [List.length_take], ?_⟩
  simp only [List.length_take]
  omega

/-- Witness of C4: the daily sample state, of which the small engine lists
eleven occurrences. -/
theorem derivation_publishes_witness :
    ¬ derivationFails sampleEngine sampleState ∧
    ∃ rule text dates,
      sampleEngine.mkRule (buildOptions sampleState) = .ok rule ∧
      sampleEngine.toString rule = .ok text ∧
      sampleEngine.all rule = .ok dates ∧
      preview (derivation sampleEngine sampleState) = (text, dates.take 6) ∧
      (derivation sampleEngine sampleState).previewDates <+: dates ∧
      (derivation sampleEngine sampleState).previewDates.length = min 6 dates.length ∧
      ((derivation sampleEngine sampleState).previewDates.length < 6 ↔ dates.length < 6) :=
  ⟨by decide, derivation_publishes sampleEngine sampleState (by decide)⟩

/-- C1: when the derivation fails, the preview on display is not updated and
the failure is reported once, the effect returning normally. In every case the
occurrence list on display is the one shown before, the fields the derivation
reads are unchanged and the console receives exactly one entry. The rule text
on display is the one shown before when the failure is in building the rule or
in producing its text, and so whenever the engine lists the occurrences of a
rule without throwing, as the interface of section 6 of the specification has
it. -/
theorem derivation_failure {Rule : Type} (E : Engine Rule) (st : State)
    (h : derivationFails E st) :
    (derivation E st).previewDates = st.previewDates ∧
    inputs (derivation E st) = inputs st ∧
    (∃ e, (derivation E st).console = st.console ++ [("RRULE error", e)]) ∧
    (((∃ e, E.mkRule (buildOptions st) = .error e) ∨
        (∃ rule e, E.mkRule (buildOptions st) = .ok rule ∧ E.toString rule = .error e)) →
      preview (derivation E st) = preview st) ∧
    ((∀ rule, ∃ dates, E.all rule = .ok dates) →
      preview (derivation E st) = preview st) := by
  have hearly : ((∃ e, E.mkRule (buildOptions st) = .error e) ∨
      (∃ rule e, E.mkRule (buildOptions st) = .ok rule ∧ E.toString rule = .error e)) →
      preview (derivation E st) = preview st := by
    rintro (⟨e, h1⟩ | ⟨rule, e, h1, h2⟩)
    · simp [derivation, tryBlock, h1, preview]
    · simp [derivation, tryBlock, h1, h2, preview]
  refine ⟨?_, inputs_derivation E st, ?_, hearly, fun hall => ?_⟩
  · cases h1 : E.mkRule (buildOptions st) with
    | error e => simp [derivation, tryBlock, h1]
    | ok rule =>
      cases h2 : E.toString rule with
      | error e => simp [derivation, tryBlock, h1, h2]
      | ok text =>
        cases h3 : E.all rule with
        | error e => simp [derivation, tryBlock, h1, h2, h3]
        | ok dates => simp [derivationFails, tryBlock, h1, h2, h3] at h
  · cases h1 : E.mkRule (buildOptions st) with
    | error e => exact ⟨e, by simp [derivation, tryBlock, h1]⟩
    | ok rule =>
      cases h2 : E.toString rule with
      | error e => exact ⟨e, by simp [derivation, tryBlock, h1, h2]⟩
      | ok text =>
        cases h3 : E.all rule with
        | error e => exact ⟨e, by simp [derivation, tryBlock, h1, h2, h3]⟩
        | ok dates => simp [derivationFails, tryBlock, h1, h2, h3] at h
  · cases h1 : E.mkRule (buildOptions st) with
    | error e => exact hearly (Or.inl ⟨e, h1⟩)
    | ok rule =>
      cases h2 : E.toString rule with
      | error e => exact hearly (Or.inr ⟨rule, e, h1, h2⟩)
      | ok text =>
        obtain ⟨dates, h3⟩ := hall rule
        simp [derivationFails, tryBlock, h1, h2, h3] at h

/-- Witness of C1: the small engine lists without throwing and rejects the
interval 0 when the rule is built; the derivation fails, the preview and the
fields read are unchanged and the console has one entry more. -/
theorem derivation_failure_witness :
    (∀ rule, ∃ dates, sampleEngine.all rule = .ok dates) ∧
    derivationFails sampleEngine zeroIntervalState ∧
    (derivation sampleEngine zeroIntervalState).previewDates = zeroIntervalState.previewDates ∧
    inputs (derivation sampleEngine zeroIntervalState) = inputs zeroIntervalState ∧
    (∃ e, (derivation sampleEngine zeroIntervalState).console
      = zeroIntervalState.console ++ [("RRULE error", e)]) ∧
    preview (derivation sampleEngine zeroIntervalState) = preview zeroIntervalState :=
  ⟨fun _ => ⟨_, rfl⟩,
    by decide,
    (derivation_failure sampleEngine zeroIntervalState (by decide)).1,
    (derivation_failure sampleEngine zeroIntervalState (by decide)).2.1,
    (derivation_failure sampleEngine zeroIntervalState (by decide)).2.2.1,
    (derivation_failure sampleEngine zeroIntervalState (by decide)).2.2.2.2
      (fun _ => ⟨_, rfl⟩)⟩

end DatePicker
